import Mathlib

/-!
Verification development for the Nextcloud media-sync engine in uploader.py.

The engine scans a local directory, filters candidates by extension and by a
durable ledger of already-uploaded file names (uploaded_files.txt), creates the
remote Year/Month folder chain over WebDAV, uploads each candidate with PUT,
records successes in the ledger, and optionally deletes local copies.

The shallow embedding below models the Python code directly:
- strings are Lean String, with character-level helpers on List Char that mirror
  the Python primitives used by the script (str.strip, str.split, str.lower,
  pathlib suffix and parts, reading a file line by line);
- the HTTP session is a function from requests to results (a status code or a
  raised exception), and local I/O outcomes (stat, open, ledger append, remove)
  are given by per-file oracles;
- Python exceptions are explicit values; a try/except block is embedded as an
  Except-valued body plus a handler that pattern-matches the exception class;
- the ledger is the pair of the in-memory set and the backing file content.
-/

/-- Python whitespace characters relevant to str.strip (ASCII subset). -/
def isPySpace (c : Char) : Bool :=
  c = ' ' || c = '\t' || c = '\n' || c = '\r' || c = '\x0b' || c = '\x0c'

/-- str.strip on a character list: drop whitespace from both ends. -/
def pyStripL (l : List Char) : List Char :=
  ((l.dropWhile isPySpace).reverse.dropWhile isPySpace).reverse

/-- str.strip on a string. -/
def pyStrip (s : String) : String :=
  ⟨pyStripL s.data⟩

/-- Prepend a character to the first piece of a split result. -/
def consHead (c : Char) : List (List Char) → List (List Char)
  | [] => [[c]]
  | l :: ls => (c :: l) :: ls

/-- Split a character list on a separator character, keeping empty pieces,
like Python str.split(sep). -/
def splitCharL (sep : Char) : List Char → List (List Char)
  | [] => [[]]
  | c :: rest =>
    if c = sep then [] :: splitCharL sep rest
    else consHead c (splitCharL sep rest)

/-- The physical lines of a file content, as produced by iterating over an
open text file in Python (a trailing newline yields a final empty piece,
which the callers strip and discard). -/
def splitLines (c : List Char) : List (List Char) :=
  splitCharL '\n' c

/-- str.strip(chars) for a single strip character, used for strip of slashes. -/
def stripCharEnds (sc : Char) (l : List Char) : List Char :=
  ((l.dropWhile (fun c => c = sc)).reverse.dropWhile (fun c => c = sc)).reverse

/-- TARGET_FOLDER.strip of the slash character. -/
def stripSlashes (s : String) : String :=
  ⟨stripCharEnds '/' s.data⟩

/-- base_url.rstrip of the slash character. -/
def rstripSlashes (s : String) : String :=
  ⟨(s.data.reverse.dropWhile (fun c => c = '/')).reverse⟩

/-- str.lower, ASCII case fold as used on file extensions. -/
def lowerStr (s : String) : String :=
  ⟨s.data.map Char.toLower⟩

/-- Position of the last dot in a character list, if any. -/
def lastDotIdx : List Char → Option Nat
  | [] => none
  | c :: rest =>
    match lastDotIdx rest with
    | some i => some (i + 1)
    | none => if c = '.' then some 0 else none

/-- pathlib suffix of a file name: the extension including the dot, empty for
names with no dot, a leading dot only, or a trailing dot. -/
def pySuffixL (l : List Char) : List Char :=
  match lastDotIdx l with
  | some i => if 0 < i ∧ i + 1 < l.length then l.drop i else []
  | none => []

/-- pathlib suffix on a string. -/
def pySuffix (s : String) : String :=
  ⟨pySuffixL s.data⟩

/-- pathlib parts of a relative remote path: slash-separated nonempty pieces,
with a root part when the path starts with a slash. -/
def pathParts (p : String) : List String :=
  let segs := ((splitCharL '/' p.data).filter (fun l => decide (l ≠ []))).map
    (fun l => String.mk l)
  if p.data.head? = some '/' then "/" :: segs else segs

/-- EXTENSIONES_VALIDAS: the configured extension string split on commas, each
piece stripped of whitespace (and not lowercased, exactly as in the source). -/
def parseExtensions (extStr : String) : List String :=
  (splitCharL ',' extStr.data).map (fun l => String.mk (pyStripL l))

/-- Year and month of a Unix timestamp (seconds), via the standard civil
calendar conversion, modelling datetime.fromtimestamp for the date fields. -/
def civilYM (ts : Nat) : Nat × Nat :=
  let z := ts / 86400 + 719468
  let era := z / 146097
  let doe := z % 146097
  let yoe := (doe - doe / 1460 + doe / 36524 - doe / 146096) / 365
  let y := yoe + era * 400
  let doy := doe - (365 * yoe + yoe / 4 - yoe / 100)
  let mp := (5 * doy + 2) / 153
  let m := if mp < 10 then mp + 3 else mp - 9
  (if m ≤ 2 then y + 1 else y, m)

/-- strftime with the year format: the four digit year as a string. -/
def yearStr (ts : Nat) : String :=
  toString (civilYM ts).1

/-- strftime with the month format: the month zero padded to two digits. -/
def monthStr (ts : Nat) : String :=
  if (civilYM ts).2 < 10 then "0" ++ toString (civilYM ts).2
  else toString (civilYM ts).2

/-- Python exception classes distinguished by the except clauses of the
script: OSError covers IOError, requests exceptions are the network layer,
ValueError signals the configuration check, and a catch-all remainder. -/
inductive PyExc
  | requestException (msg : String)
  | oSError (msg : String)
  | valueError (msg : String)
  | otherExc (msg : String)
deriving DecidableEq

/-- HTTP methods issued by the uploader. -/
inductive Method
  | PROPFIND
  | MKCOL
  | PUT
deriving DecidableEq

/-- One HTTP request of the session, identified by method and url. -/
structure Request where
  method : Method
  url : String
deriving DecidableEq

/-- Result of one HTTP round trip: a raised exception or a status code with
the response body text. -/
inductive NetResult
  | exc (e : PyExc)
  | status (code : Nat) (body : String)
deriving DecidableEq

/-- Ledger state: the in-memory uploaded_files set together with the content
of the backing file uploaded_files.txt (a missing file reads as empty). -/
structure LedgerSt where
  memSet : Finset String
  backing : List Char
deriving DecidableEq

deriving instance DecidableEq for Except

/-- Outcomes of the local I/O operations touched while processing one file:
stat of the local file, opening it for reading, appending to the ledger
backing store, and removing the local file. -/
structure FileOracle where
  statRes : Except PyExc Nat
  openRes : Except PyExc Unit
  writeRes : Except PyExc Unit
  removeRes : Except PyExc Unit
deriving DecidableEq

/-- The configuration values the engine consumes, already resolved. -/
structure Config where
  baseUrl : String
  targetFolder : String
  deleteAfterUpload : Bool
  extensions : List String
  dirExists : Bool
  localFiles : List String
deriving DecidableEq

/-- Observable result of processing one file: the boolean return value of
subir_archivo, the ledger state afterwards, whether the local copy was
deleted, and the HTTP requests issued. -/
structure UpResult where
  retOk : Bool
  st : LedgerSt
  deleted : Bool
  trace : List Request
deriving DecidableEq

/-- What the backing store read yields at startup: file missing, an IOError
while reading, or the file content. -/
inductive BackingRead
  | missing
  | readError (msg : String)
  | ok (c : List Char)
deriving DecidableEq

/-- The set of names loaded from a file content: every physical line,
whitespace stripped, blank lines discarded, collected into a set. -/
def cargarContent (c : List Char) : Finset String :=
  ((((splitLines c).map pyStripL).filter (fun l => decide (l ≠ []))).map
    (fun l => String.mk l)).toFinset

/-- NextcloudUploader._cargar_subidos: a missing backing store or an IOError
while reading yields the empty set, otherwise the stripped nonblank lines. -/
def cargarSubidos : BackingRead → Finset String
  | .missing => ∅
  | .readError _ => ∅
  | .ok c => cargarContent c

/-- A fresh uploader state over a given backing file content, as built by
the constructor: the in-memory set is loaded from the backing store. -/
def reload (backing : List Char) : LedgerSt :=
  ⟨cargarContent backing, backing⟩

/-- The constructor check of NextcloudUploader: empty url, user or password
raise ValueError, otherwise the WebDAV base url is composed. -/
def initCheck (baseUrl username password : String) : Except PyExc String :=
  if baseUrl = "" ∨ username = "" ∨ password = "" then
    .error (.valueError "URL, usuario y contrasena vacios")
  else
    .ok (rstripSlashes baseUrl ++ "/remote.php/dav/files/" ++ username)

/-- NextcloudUploader._marcar_como_subido: append the name and a newline to
the backing store, then insert the name into the in-memory set; an IOError
from the append is caught and logged, leaving both unchanged; any other
exception propagates. -/
def marcarComoSubido (writeRes : Except PyExc Unit) (st : LedgerSt)
    (filename : String) : Except PyExc LedgerSt :=
  match writeRes with
  | .ok _ => .ok ⟨insert filename st.memSet, st.backing ++ filename.data ++ ['\n']⟩
  | .error (.oSError _) => .ok st
  | .error e => .error e

/-- The accumulated remote sub path: empty so far means start with the part,
otherwise join with a slash, as in _crear_carpeta_remota. -/
def extendPath (cur part : String) : String :=
  if cur = "" then part else cur ++ "/" ++ part

/-- The creation step for one prefix, taken exactly when the probe said the
prefix is absent: MKCOL statuses 201 (created) and 405 (already exists) are
both success, letting the walk continue with the deeper prefixes; any other
status is a fatal folder-creation failure returned at once, with no deeper
request; an MKCOL network exception propagates. The walk result of the
deeper prefixes is passed in as rec, and the issued requests are recorded
in front of its trace. -/
def crearMk (probeReq mkReq : Request) (mres : NetResult)
    (rec : Except (PyExc × List Request) (Bool × List Request)) :
    Except (PyExc × List Request) (Bool × List Request) :=
  match mres with
  | .exc e => .error (e, [probeReq, mkReq])
  | .status mcode _ =>
    if mcode = 201 ∨ mcode = 405 then
      match rec with
      | .ok (b, tr) => .ok (b, probeReq :: mkReq :: tr)
      | .error (e, tr) => .error (e, probeReq :: mkReq :: tr)
    else .ok (false, [probeReq, mkReq])

/-- The probe step for one prefix: a PROPFIND network exception propagates;
status 404 leads to the creation step; any other status at all falls
through to the deeper prefixes with no creation request for this prefix. -/
def crearProbe (probeReq mkReq : Request) (pres mres : NetResult)
    (rec : Except (PyExc × List Request) (Bool × List Request)) :
    Except (PyExc × List Request) (Bool × List Request) :=
  match pres with
  | .exc e => .error (e, [probeReq])
  | .status code _ =>
    if code = 404 then crearMk probeReq mkReq mres rec
    else
      match rec with
      | .ok (b, tr) => .ok (b, probeReq :: tr)
      | .error (e, tr) => .error (e, probeReq :: tr)

/-- The walk of _crear_carpeta_remota over the remaining path parts, with
the accumulated sub path. The session is a pure oracle, so the MKCOL
response and the deeper walk are passed as values; the trace records only
the requests the source actually issues on each path. -/
def crearLoop (net : Request → NetResult) (baseUrl : String) :
    List String → String → Except (PyExc × List Request) (Bool × List Request)
  | [], _ => .ok (true, [])
  | part :: rest, cur =>
    crearProbe ⟨.PROPFIND, baseUrl ++ "/" ++ extendPath cur part⟩
      ⟨.MKCOL, baseUrl ++ "/" ++ extendPath cur part⟩
      (net ⟨.PROPFIND, baseUrl ++ "/" ++ extendPath cur part⟩)
      (net ⟨.MKCOL, baseUrl ++ "/" ++ extendPath cur part⟩)
      (crearLoop net baseUrl rest (extendPath cur part))

/-- NextcloudUploader._crear_carpeta_remota: walk the parts of the remote
path from an empty accumulated path. -/
def crearCarpetaRemota (net : Request → NetResult) (baseUrl remotePath : String) :
    Except (PyExc × List Request) (Bool × List Request) :=
  crearLoop net baseUrl (pathParts remotePath) ""

/-- The remote destination folder of a file with the given modification
time: the target root stripped of slashes, then year, then month. -/
def destinoRemoto (cfg : Config) (mt : Nat) : String :=
  stripSlashes cfg.targetFolder ++ "/" ++ yearStr mt ++ "/" ++ monthStr mt

/-- The optional deletion step after a successful upload and record, from
the inner try of subir_archivo: os.remove succeeding or raising an OSError
both leave the function returning True; any other exception from the delete
block escapes to the outer except clauses. The ledger state st2 from the
record step is kept in every outcome. -/
def afterDelete (rr : Except PyExc Unit) (st2 : LedgerSt) (tr2 : List Request) :
    Except (PyExc × UpResult) UpResult :=
  match rr with
  | .ok _ => .ok ⟨true, st2, true, tr2⟩
  | .error (.oSError _) => .ok ⟨true, st2, false, tr2⟩
  | .error e => .error (e, ⟨false, st2, false, tr2⟩)

/-- The success branch of the PUT status check in subir_archivo: record the
name in the ledger (an exception from the record propagates), then delete
the local copy when configured to, otherwise return True. -/
def afterPutOk (cfg : Config) (wr rr : Except PyExc Unit) (st : LedgerSt)
    (fname : String) (tr2 : List Request) : Except (PyExc × UpResult) UpResult :=
  match marcarComoSubido wr st fname with
  | .error e => .error (e, ⟨false, st, false, tr2⟩)
  | .ok st2 =>
    if cfg.deleteAfterUpload then afterDelete rr st2 tr2
    else .ok ⟨true, st2, false, tr2⟩

/-- The PUT response handling of subir_archivo: a network exception
propagates; status 201 or 204 is success; any other status returns False. -/
def afterPut (cfg : Config) (wr rr : Except PyExc Unit) (st : LedgerSt)
    (fname : String) (tr2 : List Request) (pr : NetResult) :
    Except (PyExc × UpResult) UpResult :=
  match pr with
  | .exc e => .error (e, ⟨false, st, false, tr2⟩)
  | .status code _ =>
    if code = 201 ∨ code = 204 then afterPutOk cfg wr rr st fname tr2
    else .ok ⟨false, st, false, tr2⟩

/-- The continuation of subir_archivo once the folder chain result is in:
on failure return False without a PUT; otherwise open the local file (an
exception propagates) and issue the PUT. -/
def afterCrear (cfg : Config) (net : Request → NetResult)
    (opr wr rr : Except PyExc Unit) (st : LedgerSt) (fname : String)
    (mt : Nat) (cr : Bool × List Request) : Except (PyExc × UpResult) UpResult :=
  match cr with
  | (false, tr) => .ok ⟨false, st, false, tr⟩
  | (true, tr) =>
    match opr with
    | .error e => .error (e, ⟨false, st, false, tr⟩)
    | .ok _ =>
      afterPut cfg wr rr st fname
        (tr ++ [⟨.PUT, cfg.baseUrl ++ "/" ++ destinoRemoto cfg mt ++ "/" ++ fname⟩])
        (net ⟨.PUT, cfg.baseUrl ++ "/" ++ destinoRemoto cfg mt ++ "/" ++ fname⟩)

/-- Dispatch on the outcome of the folder chain walk: an exception from it
propagates with its request trace; otherwise continue with the result. -/
def afterStat (cfg : Config) (net : Request → NetResult)
    (opr wr rr : Except PyExc Unit) (st : LedgerSt) (fname : String)
    (mt : Nat) (cr : Except (PyExc × List Request) (Bool × List Request)) :
    Except (PyExc × UpResult) UpResult :=
  match cr with
  | .error (e, tr) => .error (e, ⟨false, st, false, tr⟩)
  | .ok cr2 => afterCrear cfg net opr wr rr st fname mt cr2

/-- The body of the try block of subir_archivo. An exception value on the
error side carries the observable result reached at the raise point, so the
except clauses can return it. Order of effects as in the source: stat the
file, build the Year/Month destination, create the remote folder chain,
open and PUT the file, record, optionally delete. -/
def subirArchivoBody (cfg : Config) (net : Request → NetResult)
    (ora : FileOracle) (st : LedgerSt) (fname : String) :
    Except (PyExc × UpResult) UpResult :=
  match ora.statRes with
  | .error e => .error (e, ⟨false, st, false, []⟩)
  | .ok mt =>
    afterStat cfg net ora.openRes ora.writeRes ora.removeRes st fname mt
      (crearLoop net cfg.baseUrl (pathParts (destinoRemoto cfg mt)) "")

/-- The two except clauses of subir_archivo: both log and return False,
leaving the observable state as it was at the raise point. -/
def catchBody : Except (PyExc × UpResult) UpResult → UpResult
  | .ok r => r
  | .error (_, r) => r

/-- NextcloudUploader.subir_archivo: the try body wrapped in the handler. -/
def subirArchivo (cfg : Config) (net : Request → NetResult) (ora : FileOracle)
    (st : LedgerSt) (fname : String) : UpResult :=
  catchBody (subirArchivoBody cfg net ora st fname)

/-- The extension filter of run: the suffix of the file name, lowercased, is
a member of the configured extension list. -/
def extMatches (exts : List String) (fname : String) : Bool :=
  decide (lowerStr (pySuffix fname) ∈ exts)

/-- The candidate list of run: local files passing the extension filter and
whose name is not in the in-memory uploaded set. -/
def candidates (cfg : Config) (st : LedgerSt) : List String :=
  (cfg.localFiles.filter (fun f => extMatches cfg.extensions f)).filter
    (fun f => decide (f ∉ st.memSet))

/-- Fold step of the upload loop: bump the success count on a True return. -/
def tally (ok : Bool) (p : Nat × LedgerSt) : Nat × LedgerSt :=
  (if ok then p.1 + 1 else p.1, p.2)

/-- The per-candidate loop of run: process each candidate in order with
subir_archivo, threading the ledger state and counting successes. -/
def runLoop (cfg : Config) (net : Request → NetResult)
    (ora : String → FileOracle) : List String → LedgerSt → Nat × LedgerSt
  | [], st => (0, st)
  | f :: rest, st =>
    tally (subirArchivo cfg net (ora f) st f).retOk
      (runLoop cfg net ora rest (subirArchivo cfg net (ora f) st f).st)

/-- Result of one call of run: abort because the local directory is missing,
nothing new to upload, or a summary of successes over attempts with the
final ledger state. -/
inductive RunResult
  | noDir
  | upToDate (st : LedgerSt)
  | summary (exitosos total : Nat) (st : LedgerSt)
deriving DecidableEq

/-- NextcloudUploader.run: abort when the local directory does not exist,
otherwise filter candidates and process them in order. -/
def runEngine (cfg : Config) (net : Request → NetResult)
    (ora : String → FileOracle) (st : LedgerSt) : RunResult :=
  if cfg.dirExists = false then .noDir
  else
    if candidates cfg st = [] then .upToDate st
    else
      .summary (runLoop cfg net ora (candidates cfg st) st).1
        (candidates cfg st).length
        (runLoop cfg net ora (candidates cfg st) st).2

/-- A backing store content is line terminated when it is empty or ends with
a newline; the append-only writes of the script preserve this shape. -/
def lineTerminated (c : List Char) : Prop :=
  c = [] ∨ ∃ c2, c = c2 ++ ['\n']

/-- A file name round-trips through the ledger persistence exactly when it
is unchanged by whitespace stripping, nonempty, and newline free. -/
def cleanName (s : String) : Prop :=
  pyStripL s.data = s.data ∧ s.data ≠ [] ∧ '\n' ∉ s.data

/-- Invariant tying the in-memory set to the backing store: the store is
line terminated and every clean member of the set reloads from the store. -/
def ledgerInv (st : LedgerSt) : Prop :=
  lineTerminated st.backing ∧
    ∀ n : String, n ∈ st.memSet → cleanName n → n ∈ cargarContent st.backing

/-- The set of names contributed by a list of physical lines. -/
def linesFinset (ls : List (List Char)) : Finset String :=
  (((ls.map pyStripL).filter (fun l => decide (l ≠ []))).map
    (fun l => String.mk l)).toFinset

/-- The request trace carried by a folder chain walk result. -/
def crTrace : Except (PyExc × List Request) (Bool × List Request) → List Request
  | .error (_, tr) => tr
  | .ok (_, tr) => tr

/-- A session whose every response is status 201. -/
def netAllOk : Request → NetResult := fun _ => .status 201 ""

/-- The session of the specification scenario: every probe says absent,
every creation says created, the upload says created. -/
def netScenario : Request → NetResult := fun r =>
  match r.method with
  | .PROPFIND => .status 404 ""
  | .MKCOL => .status 201 ""
  | .PUT => .status 201 ""

/-- Local I/O with no failures; the file was modified on 2024-03-15. -/
def oraAllOk : FileOracle := ⟨.ok 1710500000, .ok (), .ok (), .ok ()⟩

/-- The same healthy local I/O for every file. -/
def oraFnAllOk : String → FileOracle := fun _ => oraAllOk

/-- A session whose existence probes return the unexpected status 500. -/
def c1net : Request → NetResult := fun r =>
  if r.method = .PROPFIND then .status 500 "err" else .status 201 ""

/-- Configuration with one local file whose name has a leading space. -/
def c2cfg : Config :=
  ⟨"u", "T", false, parseExtensions ".jpg", true, [" a.jpg"]⟩

/-- Configuration with one local file with a clean name. -/
def c2wcfg : Config :=
  ⟨"u", "T", false, parseExtensions ".jpg", true, ["b.jpg"]⟩

/-- A session that fails the upload with a network exception. -/
def c3net : Request → NetResult := fun r =>
  if r.method = .PUT then .exc (.requestException "timeout") else .status 201 ""

/-- A session where probes find nothing and creations hit a server error. -/
def c4net : Request → NetResult := fun r =>
  if r.method = .PROPFIND then .status 404 "" else .status 500 "server error"

/-- Deletion-enabled configuration with a space-prefixed local file name. -/
def c6cfg : Config :=
  ⟨"u", "T", true, parseExtensions ".jpg", true, [" b.jpg"]⟩

/-- Deletion-enabled configuration with a clean local file name. -/
def c6wcfg : Config :=
  ⟨"u", "T", true, parseExtensions ".jpg", true, ["b.jpg"]⟩

/-- Local I/O whose delete step raises an OSError. -/
def c6ora : String → FileOracle := fun _ =>
  ⟨.ok 1710500000, .ok (), .ok (), .error (.oSError "busy")⟩

/-- The configuration of the specification scenario. -/
def c7cfg : Config :=
  ⟨"https://nc.example/remote.php/dav/files/user", "TermuxUploads", false,
    parseExtensions ".jpg,.jpeg,.png,.mp4,.mov,.gif", true, ["IMG_0001.jpg"]⟩

/-- Deletion-disabled configuration with a clean local file name. -/
def c8cfg : Config :=
  ⟨"u", "T", false, parseExtensions ".jpg", true, ["b.jpg"]⟩

/-- Local I/O whose ledger append raises an IOError. -/
def c8ora : String → FileOracle := fun _ =>
  ⟨.ok 1710500000, .ok (), .error (.oSError "disk full"), .ok ()⟩

/-- Local I/O whose stat raises an exception outside the OSError family. -/
def c9ora : FileOracle :=
  ⟨.error (.otherExc "stat failed"), .ok (), .ok (), .ok ()⟩

instance (s : String) : Decidable (cleanName s) := by
  unfold cleanName
  infer_instance

/-- The success and attempt counts reported by a run, when it reaches the
upload loop. -/
def runCount : RunResult → Option (Nat × Nat)
  | .summary exitosos total _ => some (exitosos, total)
  | _ => none

/-- The backing store content after a run, when the run was not aborted. -/
def runBacking : RunResult → Option (List Char)
  | .noDir => none
  | .upToDate st => some st.backing
  | .summary _ _ st => some st.backing

theorem cargarContent_eq (c : List Char) :
    cargarContent c = linesFinset (splitLines c) := rfl

theorem linesFinset_append (a b : List (List Char)) :
    linesFinset (a ++ b) = linesFinset a ∪ linesFinset b := by
  simp [linesFinset, List.filter_append, List.toFinset_append]

theorem splitCharL_ne_nil (sep : Char) (l : List Char) :
    splitCharL sep l ≠ [] := by
  induction l with
  | nil => simp [splitCharL]
  | cons c rest ih =>
    simp only [splitCharL]
    split
    · simp
    · cases h : splitCharL sep rest with
      | nil => simp [consHead]
      | cons a as => simp [consHead, h]

theorem consHead_append (c : Char) (xs : List (List Char))
    (hxs : xs ≠ []) (ys : List (List Char)) :
    consHead c (xs ++ ys) = consHead c xs ++ ys := by
  cases xs with
  | nil => exact absurd rfl hxs
  | cons x xt => simp [consHead]

theorem splitCharL_append (sep : Char) (a b : List Char) :
    splitCharL sep (a ++ sep :: b) = splitCharL sep a ++ splitCharL sep b := by
  induction a with
  | nil => simp [splitCharL]
  | cons c rest ih =>
    by_cases hc : c = sep
    · subst hc
      simp [splitCharL, List.append_eq, ih]
    · simp only [List.cons_append, splitCharL, if_neg hc, List.append_eq, ih,
        consHead_append c (splitCharL sep rest) (splitCharL_ne_nil sep rest)]

theorem splitCharL_of_not_mem (sep : Char) (l : List Char) (h : sep ∉ l) :
    splitCharL sep l = [l] := by
  induction l with
  | nil => rfl
  | cons c rest ih =>
    have hc : ¬ c = sep := by
      intro hh
      exact h (hh ▸ List.mem_cons_self c rest)
    have hr : sep ∉ rest := fun hm => h (List.mem_cons_of_mem c hm)
    simp only [splitCharL, if_neg hc, ih hr, consHead]

theorem cargarContent_append_of_terminated (c d : List Char)
    (h : lineTerminated c) :
    cargarContent (c ++ d) = cargarContent c ∪ cargarContent d := by
  rcases h with h | ⟨c2, rfl⟩
  · subst h
    have : cargarContent ([] : List Char) = ∅ := by decide
    simp [this]
  · have h1 : (c2 ++ ['\n']) ++ d = c2 ++ '\n' :: d := by simp
    have h2 : c2 ++ ['\n'] = c2 ++ '\n' :: ([] : List Char) := rfl
    rw [h1, h2, cargarContent_eq, cargarContent_eq, cargarContent_eq,
      splitLines, splitLines, splitCharL_append, splitCharL_append,
      linesFinset_append, linesFinset_append]
    have h3 : linesFinset (splitCharL '\n' []) = ∅ := by decide
    rw [h3, Finset.union_empty]
    rfl

theorem mem_cargarContent_mono (c d : List Char) (h : lineTerminated c)
    (s : String) (hs : s ∈ cargarContent c) : s ∈ cargarContent (c ++ d) := by
  rw [cargarContent_append_of_terminated c d h, Finset.mem_union]
  exact Or.inl hs

theorem mem_cargarContent_record (c : List Char) (hc : lineTerminated c)
    (s : String) (hs : cleanName s) :
    s ∈ cargarContent (c ++ s.data ++ ['\n']) := by
  rw [List.append_assoc, cargarContent_append_of_terminated c _ hc,
    Finset.mem_union]
  right
  have h2 : s.data ++ ['\n'] = s.data ++ '\n' :: ([] : List Char) := rfl
  rw [cargarContent_eq, splitLines, h2, splitCharL_append,
    splitCharL_of_not_mem '\n' s.data hs.2.2]
  have h3 : splitCharL '\n' ([] : List Char) = [[]] := rfl
  rw [h3, linesFinset_append]
  rw [Finset.mem_union]
  left
  have h4 : linesFinset [s.data] = {String.mk s.data} := by
    simp [linesFinset, hs.1, hs.2.1]
  rw [h4, Finset.mem_singleton]

theorem lineTerminated_record (c : List Char) (n : List Char) :
    lineTerminated (c ++ n ++ ['\n']) :=
  Or.inr ⟨c ++ n, rfl⟩

theorem marcar_ok_inv (w : Except PyExc Unit) (st st2 : LedgerSt) (f : String)
    (hinv : ledgerInv st) (hm : marcarComoSubido w st f = .ok st2) :
    ledgerInv st2 := by
  cases w with
  | ok u =>
    simp only [marcarComoSubido, Except.ok.injEq] at hm
    subst hm
    constructor
    · exact lineTerminated_record st.backing f.data
    · intro n hn hcl
      simp only [Finset.mem_insert] at hn
      rcases hn with rfl | hn
      · exact mem_cargarContent_record st.backing hinv.1 n hcl
      · have := hinv.2 n hn hcl
        rw [List.append_assoc]
        exact mem_cargarContent_mono st.backing (f.data ++ ['\n']) hinv.1 n this
  | error e =>
    cases e with
    | oSError m =>
      simp only [marcarComoSubido, Except.ok.injEq] at hm
      subst hm
      exact hinv
    | requestException m => simp [marcarComoSubido] at hm
    | valueError m => simp [marcarComoSubido] at hm
    | otherExc m => simp [marcarComoSubido] at hm

theorem marcar_ok_subset (w : Except PyExc Unit) (st st2 : LedgerSt)
    (f : String) (hm : marcarComoSubido w st f = .ok st2) :
    st.memSet ⊆ st2.memSet := by
  cases w with
  | ok u =>
    simp only [marcarComoSubido, Except.ok.injEq] at hm
    subst hm
    exact Finset.subset_insert f st.memSet
  | error e =>
    cases e with
    | oSError m =>
      simp only [marcarComoSubido, Except.ok.injEq] at hm
      subst hm
      exact Finset.Subset.refl _
    | requestException m => simp [marcarComoSubido] at hm
    | valueError m => simp [marcarComoSubido] at hm
    | otherExc m => simp [marcarComoSubido] at hm

theorem catch_afterDelete (rr : Except PyExc Unit) (st2 : LedgerSt)
    (tr2 : List Request) :
    (catchBody (afterDelete rr st2 tr2)).st = st2 ∧
      (catchBody (afterDelete rr st2 tr2)).trace = tr2 := by
  cases rr with
  | ok u => exact ⟨rfl, rfl⟩
  | error e => cases e <;> exact ⟨rfl, rfl⟩

/-- Unfolding equation for afterPutOk. -/
theorem afterPutOk_eq (cfg : Config) (wr rr : Except PyExc Unit)
    (st : LedgerSt) (f : String) (tr2 : List Request) :
    afterPutOk cfg wr rr st f tr2 =
      match marcarComoSubido wr st f with
      | .error e => .error (e, ⟨false, st, false, tr2⟩)
      | .ok st2 =>
        if cfg.deleteAfterUpload then afterDelete rr st2 tr2
        else .ok ⟨true, st2, false, tr2⟩ := rfl

/-- Unfolding equation for afterPut on a status response. -/
theorem afterPut_status (cfg : Config) (wr rr : Except PyExc Unit)
    (st : LedgerSt) (f : String) (tr2 : List Request) (code : Nat)
    (body : String) :
    afterPut cfg wr rr st f tr2 (.status code body) =
      if code = 201 ∨ code = 204 then afterPutOk cfg wr rr st f tr2
      else .ok ⟨false, st, false, tr2⟩ := rfl

theorem catch_afterPutOk (cfg : Config) (wr rr : Except PyExc Unit)
    (st : LedgerSt) (f : String) (tr2 : List Request) :
    ((catchBody (afterPutOk cfg wr rr st f tr2)).st = st ∨
      marcarComoSubido wr st f = .ok (catchBody (afterPutOk cfg wr rr st f tr2)).st) ∧
    (catchBody (afterPutOk cfg wr rr st f tr2)).trace = tr2 := by
  rw [afterPutOk_eq]
  cases hm : marcarComoSubido wr st f with
  | error e => exact ⟨Or.inl rfl, rfl⟩
  | ok st2 =>
    cases hdel : cfg.deleteAfterUpload with
    | false => exact ⟨Or.inr rfl, rfl⟩
    | true =>
      have h := catch_afterDelete rr st2 tr2
      exact ⟨Or.inr (congrArg Except.ok h.1.symm), h.2⟩

theorem catch_afterPut (cfg : Config) (wr rr : Except PyExc Unit)
    (st : LedgerSt) (f : String) (tr2 : List Request) (pr : NetResult) :
    ((catchBody (afterPut cfg wr rr st f tr2 pr)).st = st ∨
      marcarComoSubido wr st f = .ok (catchBody (afterPut cfg wr rr st f tr2 pr)).st) ∧
    (catchBody (afterPut cfg wr rr st f tr2 pr)).trace = tr2 := by
  cases pr with
  | exc e => exact ⟨Or.inl rfl, rfl⟩
  | status code body =>
    rw [afterPut_status]
    by_cases hcode : code = 201 ∨ code = 204
    · rw [if_pos hcode]
      exact catch_afterPutOk cfg wr rr st f tr2
    · rw [if_neg hcode]
      exact ⟨Or.inl rfl, rfl⟩

theorem catch_afterCrear (cfg : Config) (net : Request → NetResult)
    (opr wr rr : Except PyExc Unit) (st : LedgerSt) (f : String) (mt : Nat)
    (b : Bool) (tr : List Request) :
    ((catchBody (afterCrear cfg net opr wr rr st f mt (b, tr))).st = st ∨
      marcarComoSubido wr st f =
        .ok (catchBody (afterCrear cfg net opr wr rr st f mt (b, tr))).st) ∧
    ((catchBody (afterCrear cfg net opr wr rr st f mt (b, tr))).trace = tr ∨
      (catchBody (afterCrear cfg net opr wr rr st f mt (b, tr))).trace =
        tr ++ [⟨.PUT, cfg.baseUrl ++ "/" ++ destinoRemoto cfg mt ++ "/" ++ f⟩]) := by
  cases b with
  | false => exact ⟨Or.inl rfl, Or.inl rfl⟩
  | true =>
    cases opr with
    | error e => exact ⟨Or.inl rfl, Or.inl rfl⟩
    | ok u =>
      have h := catch_afterPut cfg wr rr st f
        (tr ++ [⟨.PUT, cfg.baseUrl ++ "/" ++ destinoRemoto cfg mt ++ "/" ++ f⟩])
        (net ⟨.PUT, cfg.baseUrl ++ "/" ++ destinoRemoto cfg mt ++ "/" ++ f⟩)
      exact ⟨h.1, Or.inr h.2⟩

theorem catch_afterStat (cfg : Config) (net : Request → NetResult)
    (opr wr rr : Except PyExc Unit) (st : LedgerSt) (f : String) (mt : Nat)
    (cr : Except (PyExc × List Request) (Bool × List Request)) :
    ((catchBody (afterStat cfg net opr wr rr st f mt cr)).st = st ∨
      marcarComoSubido wr st f =
        .ok (catchBody (afterStat cfg net opr wr rr st f mt cr)).st) ∧
    ((catchBody (afterStat cfg net opr wr rr st f mt cr)).trace = crTrace cr ∨
      (catchBody (afterStat cfg net opr wr rr st f mt cr)).trace =
        crTrace cr ++ [⟨.PUT, cfg.baseUrl ++ "/" ++ destinoRemoto cfg mt ++ "/" ++ f⟩]) := by
  cases cr with
  | error p =>
    obtain ⟨e, tr⟩ := p
    exact ⟨Or.inl rfl, Or.inl rfl⟩
  | ok cr2 =>
    obtain ⟨b, tr⟩ := cr2
    exact catch_afterCrear cfg net opr wr rr st f mt b tr

theorem subirArchivoBody_stat_err (cfg : Config) (net : Request → NetResult)
    (ora : FileOracle) (st : LedgerSt) (f : String) (e : PyExc)
    (hstat : ora.statRes = .error e) :
    subirArchivoBody cfg net ora st f = .error (e, ⟨false, st, false, []⟩) := by
  unfold subirArchivoBody
  rw [hstat]

theorem subirArchivoBody_stat_ok (cfg : Config) (net : Request → NetResult)
    (ora : FileOracle) (st : LedgerSt) (f : String) (mt : Nat)
    (hstat : ora.statRes = .ok mt) :
    subirArchivoBody cfg net ora st f =
      afterStat cfg net ora.openRes ora.writeRes ora.removeRes st f mt
        (crearLoop net cfg.baseUrl (pathParts (destinoRemoto cfg mt)) "") := by
  unfold subirArchivoBody
  rw [hstat]

/-- Every ledger state reachable from processing one file is either the
input state or the result of a successful record of the file name. -/
theorem subirArchivo_st_cases (cfg : Config) (net : Request → NetResult)
    (ora : FileOracle) (st : LedgerSt) (f : String) :
    (subirArchivo cfg net ora st f).st = st ∨
      marcarComoSubido ora.writeRes st f = .ok (subirArchivo cfg net ora st f).st := by
  unfold subirArchivo
  cases hstat : ora.statRes with
  | error e =>
    rw [subirArchivoBody_stat_err cfg net ora st f e hstat]
    exact Or.inl rfl
  | ok mt =>
    rw [subirArchivoBody_stat_ok cfg net ora st f mt hstat]
    exact (catch_afterStat cfg net ora.openRes ora.writeRes ora.removeRes st f mt
      (crearLoop net cfg.baseUrl (pathParts (destinoRemoto cfg mt)) "")).1

/-- Unfolding equation for the folder walk on a remaining part. -/
theorem crearLoop_cons (net : Request → NetResult) (u part : String)
    (rest : List String) (cur : String) :
    crearLoop net u (part :: rest) cur =
      crearProbe ⟨.PROPFIND, u ++ "/" ++ extendPath cur part⟩
        ⟨.MKCOL, u ++ "/" ++ extendPath cur part⟩
        (net ⟨.PROPFIND, u ++ "/" ++ extendPath cur part⟩)
        (net ⟨.MKCOL, u ++ "/" ++ extendPath cur part⟩)
        (crearLoop net u rest (extendPath cur part)) := rfl

/-- No request of a folder walk trace is a PUT: the walk only probes and
creates folders. -/
theorem crearLoop_no_put (net : Request → NetResult) (u : String)
    (parts : List String) :
    ∀ cur r, r ∈ crTrace (crearLoop net u parts cur) → r.method ≠ .PUT := by
  induction parts with
  | nil =>
    intro cur r hr
    simp [crearLoop, crTrace] at hr
  | cons part rest ih =>
    intro cur r hr
    rw [crearLoop_cons] at hr
    cases hp : net ⟨.PROPFIND, u ++ "/" ++ extendPath cur part⟩ with
    | exc e =>
      rw [hp] at hr
      simp only [crearProbe, crTrace, List.mem_singleton] at hr
      subst hr
      simp
    | status code body =>
      rw [hp] at hr
      by_cases h404 : code = 404
      · simp only [crearProbe, if_pos h404] at hr
        cases hm : net ⟨.MKCOL, u ++ "/" ++ extendPath cur part⟩ with
        | exc e =>
          rw [hm] at hr
          simp only [crearMk, crTrace, List.mem_cons, List.mem_singleton,
            List.not_mem_nil, or_false] at hr
          rcases hr with rfl | rfl
          · simp
          · simp
        | status mcode mbody =>
          rw [hm] at hr
          by_cases hok : mcode = 201 ∨ mcode = 405
          · simp only [crearMk, if_pos hok] at hr
            cases hrec : crearLoop net u rest (extendPath cur part) with
            | ok pr =>
              obtain ⟨b, tr⟩ := pr
              rw [hrec] at hr
              simp only [crTrace, List.mem_cons] at hr
              rcases hr with rfl | rfl | hr
              · simp
              · simp
              · have := ih (extendPath cur part) r
                rw [hrec] at this
                exact this hr
            | error pe =>
              obtain ⟨e, tr⟩ := pe
              rw [hrec] at hr
              simp only [crTrace, List.mem_cons] at hr
              rcases hr with rfl | rfl | hr
              · simp
              · simp
              · have := ih (extendPath cur part) r
                rw [hrec] at this
                exact this hr
          · simp only [crearMk, if_neg hok, crTrace, List.mem_cons,
              List.mem_singleton, List.not_mem_nil, or_false] at hr
            rcases hr with rfl | rfl
            · simp
            · simp
      · simp only [crearProbe, if_neg h404] at hr
        cases hrec : crearLoop net u rest (extendPath cur part) with
        | ok pr =>
          obtain ⟨b, tr⟩ := pr
          rw [hrec] at hr
          simp only [crTrace, List.mem_cons] at hr
          rcases hr with rfl | hr
          · simp
          · have := ih (extendPath cur part) r
            rw [hrec] at this
            exact this hr
        | error pe =>
          obtain ⟨e, tr⟩ := pe
          rw [hrec] at hr
          simp only [crTrace, List.mem_cons] at hr
          rcases hr with rfl | hr
          · simp
          · have := ih (extendPath cur part) r
            rw [hrec] at this
            exact this hr

/-- Unfolding equation: a folder walk exception propagates through the
dispatch with its trace. -/
theorem afterStat_err (cfg : Config) (net : Request → NetResult)
    (opr wr rr : Except PyExc Unit) (st : LedgerSt) (f : String) (mt : Nat)
    (e : PyExc) (tr : List Request) :
    afterStat cfg net opr wr rr st f mt (.error (e, tr)) =
      .error (e, ⟨false, st, false, tr⟩) := rfl

/-- Unfolding equation: a completed folder walk hands its result on. -/
theorem afterStat_ok (cfg : Config) (net : Request → NetResult)
    (opr wr rr : Except PyExc Unit) (st : LedgerSt) (f : String) (mt : Nat)
    (cr2 : Bool × List Request) :
    afterStat cfg net opr wr rr st f mt (.ok cr2) =
      afterCrear cfg net opr wr rr st f mt cr2 := rfl

/-- Unfolding equation: a failed folder chain returns False with no PUT. -/
theorem afterCrear_false (cfg : Config) (net : Request → NetResult)
    (opr wr rr : Except PyExc Unit) (st : LedgerSt) (f : String) (mt : Nat)
    (tr : List Request) :
    afterCrear cfg net opr wr rr st f mt (false, tr) =
      .ok ⟨false, st, false, tr⟩ := rfl

/-- Unfolding equation: after a successful folder chain and open, the PUT
is issued to the derived destination. -/
theorem afterCrear_true_ok (cfg : Config) (net : Request → NetResult)
    (wr rr : Except PyExc Unit) (st : LedgerSt) (f : String) (mt : Nat)
    (tr : List Request) (u : Unit) :
    afterCrear cfg net (.ok u) wr rr st f mt (true, tr) =
      afterPut cfg wr rr st f
        (tr ++ [⟨.PUT, cfg.baseUrl ++ "/" ++ destinoRemoto cfg mt ++ "/" ++ f⟩])
        (net ⟨.PUT, cfg.baseUrl ++ "/" ++ destinoRemoto cfg mt ++ "/" ++ f⟩) := rfl

/-- Unfolding equation: an exception from the open propagates. -/
theorem afterCrear_true_err (cfg : Config) (net : Request → NetResult)
    (wr rr : Except PyExc Unit) (st : LedgerSt) (f : String) (mt : Nat)
    (tr : List Request) (e : PyExc) :
    afterCrear cfg net (.error e) wr rr st f mt (true, tr) =
      .error (e, ⟨false, st, false, tr⟩) := rfl

/-- Unfolding equation: a PUT network exception propagates. -/
theorem afterPut_exc (cfg : Config) (wr rr : Except PyExc Unit)
    (st : LedgerSt) (f : String) (tr2 : List Request) (e : PyExc) :
    afterPut cfg wr rr st f tr2 (.exc e) =
      .error (e, ⟨false, st, false, tr2⟩) := rfl

/-- Processing one file never shrinks the in-memory uploaded set. -/
theorem subirArchivo_subset (cfg : Config) (net : Request → NetResult)
    (ora : FileOracle) (st : LedgerSt) (f : String) :
    st.memSet ⊆ (subirArchivo cfg net ora st f).st.memSet := by
  rcases subirArchivo_st_cases cfg net ora st f with h | h
  · rw [h]
  · exact marcar_ok_subset ora.writeRes st _ f h

/-- Processing one file preserves the ledger invariant. -/
theorem subirArchivo_inv (cfg : Config) (net : Request → NetResult)
    (ora : FileOracle) (st : LedgerSt) (f : String) (hinv : ledgerInv st) :
    ledgerInv (subirArchivo cfg net ora st f).st := by
  rcases subirArchivo_st_cases cfg net ora st f with h | h
  · rw [h]; exact hinv
  · exact marcar_ok_inv ora.writeRes st _ f hinv h

/-- Unfolding equation of the per-candidate loop. -/
theorem runLoop_cons (cfg : Config) (net : Request → NetResult)
    (ora : String → FileOracle) (f : String) (rest : List String)
    (st : LedgerSt) :
    runLoop cfg net ora (f :: rest) st =
      tally (subirArchivo cfg net (ora f) st f).retOk
        (runLoop cfg net ora rest (subirArchivo cfg net (ora f) st f).st) := rfl

theorem tally_false (p : Nat × LedgerSt) : tally false p = p := by
  simp [tally]

theorem tally_true (p : Nat × LedgerSt) : tally true p = (p.1 + 1, p.2) := rfl

theorem tally_snd (ok : Bool) (p : Nat × LedgerSt) : (tally ok p).2 = p.2 := rfl

/-- The loop never shrinks the in-memory uploaded set. -/
theorem runLoop_subset (cfg : Config) (net : Request → NetResult)
    (ora : String → FileOracle) (files : List String) :
    ∀ st : LedgerSt, st.memSet ⊆ (runLoop cfg net ora files st).2.memSet := by
  induction files with
  | nil => intro st; exact Finset.Subset.refl _
  | cons f rest ih =>
    intro st
    rw [runLoop_cons, tally_snd]
    exact Finset.Subset.trans (subirArchivo_subset cfg net (ora f) st f)
      (ih (subirArchivo cfg net (ora f) st f).st)

/-- The loop preserves the ledger invariant. -/
theorem runLoop_inv (cfg : Config) (net : Request → NetResult)
    (ora : String → FileOracle) (files : List String) :
    ∀ st : LedgerSt, ledgerInv st → ledgerInv (runLoop cfg net ora files st).2 := by
  induction files with
  | nil => intro st h; exact h
  | cons f rest ih =>
    intro st h
    rw [runLoop_cons, tally_snd]
    exact ih (subirArchivo cfg net (ora f) st f).st
      (subirArchivo_inv cfg net (ora f) st f h)

/-- A clean name present in the in-memory set of an invariant-preserving
state is not a candidate of a fresh run started over the same backing
store: the reload finds it among the stripped lines. -/
theorem mem_reload_excluded (cfg : Config) (st : LedgerSt)
    (hinv : ledgerInv st) (f : String) (hf : f ∈ st.memSet)
    (hcl : cleanName f) : f ∉ candidates cfg (reload st.backing) := by
  intro hmem
  have h1 : f ∈ cargarContent st.backing := hinv.2 f hf hcl
  unfold candidates at hmem
  rw [List.mem_filter] at hmem
  have h2 := hmem.2
  rw [decide_eq_true_eq] at h2
  exact h2 h1

/-- Every PUT request issued while processing one file goes to the url
derived from the target root, the year and month of the modification time,
and the bare file name. -/
theorem subirArchivo_put_url (cfg : Config) (net : Request → NetResult)
    (ora : FileOracle) (st : LedgerSt) (f : String) (mt : Nat)
    (hstat : ora.statRes = .ok mt) :
    ∀ r ∈ (subirArchivo cfg net ora st f).trace, r.method = .PUT →
      r.url = cfg.baseUrl ++ "/" ++ destinoRemoto cfg mt ++ "/" ++ f := by
  intro r hr hput
  unfold subirArchivo at hr
  rw [subirArchivoBody_stat_ok cfg net ora st f mt hstat] at hr
  have h := (catch_afterStat cfg net ora.openRes ora.writeRes ora.removeRes st f mt
    (crearLoop net cfg.baseUrl (pathParts (destinoRemoto cfg mt)) "")).2
  rcases h with h | h
  · rw [h] at hr
    exact absurd hput
      (crearLoop_no_put net cfg.baseUrl (pathParts (destinoRemoto cfg mt)) "" r hr)
  · rw [h] at hr
    rcases List.mem_append.mp hr with h1 | h2
    · exact absurd hput
        (crearLoop_no_put net cfg.baseUrl (pathParts (destinoRemoto cfg mt)) "" r h1)
    · rw [List.mem_singleton] at h2
      subst h2
      rfl

/-- The run aborts with the missing-directory outcome exactly when the
configured local directory does not exist. -/
theorem runEngine_noDir_iff (cfg : Config) (net : Request → NetResult)
    (ora : String → FileOracle) (st : LedgerSt) :
    runEngine cfg net ora st = .noDir ↔ cfg.dirExists = false := by
  unfold runEngine
  by_cases hd : cfg.dirExists = false
  · rw [if_pos hd]
    simp [hd]
  · rw [if_neg hd]
    constructor
    · intro h
      by_cases hc : candidates cfg st = []
      · rw [if_pos hc] at h
        exact RunResult.noConfusion h
      · rw [if_neg hc] at h
        exact RunResult.noConfusion h
    · intro h
      exact absurd h hd

/-- The constructor raises exactly when a connection parameter is empty. -/
theorem initCheck_error_iff (b u p : String) :
    (∃ e, initCheck b u p = .error e) ↔ (b = "" ∨ u = "" ∨ p = "") := by
  unfold initCheck
  by_cases h : b = "" ∨ u = "" ∨ p = ""
  · rw [if_pos h]
    simp [h]
  · rw [if_neg h]
    simp [h]

/-- A probe status other than 404 skips creation for that prefix and
continues with the deeper prefixes (successful walk case). -/
theorem crearLoop_probe_skip_ok (net : Request → NetResult) (u part : String)
    (rest : List String) (cur : String) (code : Nat) (body : String)
    (b : Bool) (tr : List Request)
    (hp : net ⟨.PROPFIND, u ++ "/" ++ extendPath cur part⟩ = .status code body)
    (h404 : code ≠ 404)
    (hrec : crearLoop net u rest (extendPath cur part) = .ok (b, tr)) :
    crearLoop net u (part :: rest) cur =
      .ok (b, ⟨.PROPFIND, u ++ "/" ++ extendPath cur part⟩ :: tr) := by
  rw [crearLoop_cons, hp, hrec]
  simp only [crearProbe]
  rw [if_neg h404]

/-- A probe status other than 404 skips creation for that prefix and
continues with the deeper prefixes (propagated exception case). -/
theorem crearLoop_probe_skip_err (net : Request → NetResult) (u part : String)
    (rest : List String) (cur : String) (code : Nat) (body : String)
    (e : PyExc) (tr : List Request)
    (hp : net ⟨.PROPFIND, u ++ "/" ++ extendPath cur part⟩ = .status code body)
    (h404 : code ≠ 404)
    (hrec : crearLoop net u rest (extendPath cur part) = .error (e, tr)) :
    crearLoop net u (part :: rest) cur =
      .error (e, ⟨.PROPFIND, u ++ "/" ++ extendPath cur part⟩ :: tr) := by
  rw [crearLoop_cons, hp, hrec]
  simp only [crearProbe]
  rw [if_neg h404]

/-- A 404 probe followed by an MKCOL status outside 201 and 405 makes the
walk return failure at once: the trace holds exactly the probe and the
creation attempt of this prefix, nothing deeper. -/
theorem crearLoop_mkcol_fail (net : Request → NetResult) (u part : String)
    (rest : List String) (cur : String) (body mbody : String) (mcode : Nat)
    (hp : net ⟨.PROPFIND, u ++ "/" ++ extendPath cur part⟩ = .status 404 body)
    (hm : net ⟨.MKCOL, u ++ "/" ++ extendPath cur part⟩ = .status mcode mbody)
    (h1 : mcode ≠ 201) (h2 : mcode ≠ 405) :
    crearLoop net u (part :: rest) cur =
      .ok (false, [⟨.PROPFIND, u ++ "/" ++ extendPath cur part⟩,
        ⟨.MKCOL, u ++ "/" ++ extendPath cur part⟩]) := by
  rw [crearLoop_cons, hp, hm]
  simp only [crearProbe, crearMk, reduceIte]
  rw [if_neg (fun h => Or.elim h h1 h2)]

/-- A 404 probe followed by an MKCOL status of 201 or 405 is success for
this prefix: the walk records both requests and continues deeper. -/
theorem crearLoop_mkcol_ok (net : Request → NetResult) (u part : String)
    (rest : List String) (cur : String) (body mbody : String) (mcode : Nat)
    (b : Bool) (tr : List Request)
    (hp : net ⟨.PROPFIND, u ++ "/" ++ extendPath cur part⟩ = .status 404 body)
    (hm : net ⟨.MKCOL, u ++ "/" ++ extendPath cur part⟩ = .status mcode mbody)
    (hok : mcode = 201 ∨ mcode = 405)
    (hrec : crearLoop net u rest (extendPath cur part) = .ok (b, tr)) :
    crearLoop net u (part :: rest) cur =
      .ok (b, ⟨.PROPFIND, u ++ "/" ++ extendPath cur part⟩ ::
        ⟨.MKCOL, u ++ "/" ++ extendPath cur part⟩ :: tr) := by
  rw [crearLoop_cons, hp, hm, hrec]
  simp only [crearProbe, crearMk, reduceIte]
  rw [if_pos hok]

/-- A failed folder chain makes subir_archivo return False with the walk
trace and no state change; no PUT is issued. -/
theorem subirArchivo_crear_fail (cfg : Config) (net : Request → NetResult)
    (ora : FileOracle) (st : LedgerSt) (f : String) (mt : Nat)
    (tr : List Request) (hstat : ora.statRes = .ok mt)
    (hcr : crearLoop net cfg.baseUrl (pathParts (destinoRemoto cfg mt)) "" =
      .ok (false, tr)) :
    subirArchivo cfg net ora st f = ⟨false, st, false, tr⟩ := by
  unfold subirArchivo
  rw [subirArchivoBody_stat_ok cfg net ora st f mt hstat, hcr, afterStat_ok,
    afterCrear_false]
  rfl

/-- A network exception from the PUT makes subir_archivo return False with
no state change; the trace ends with the attempted PUT. -/
theorem subirArchivo_put_exc (cfg : Config) (net : Request → NetResult)
    (ora : FileOracle) (st : LedgerSt) (f : String) (mt : Nat)
    (tr : List Request) (e : PyExc)
    (hstat : ora.statRes = .ok mt)
    (hcr : crearLoop net cfg.baseUrl (pathParts (destinoRemoto cfg mt)) "" =
      .ok (true, tr))
    (hopen : ora.openRes = .ok ())
    (hput : net ⟨.PUT, cfg.baseUrl ++ "/" ++ destinoRemoto cfg mt ++ "/" ++ f⟩ =
      .exc e) :
    subirArchivo cfg net ora st f =
      ⟨false, st, false,
        tr ++ [⟨.PUT, cfg.baseUrl ++ "/" ++ destinoRemoto cfg mt ++ "/" ++ f⟩]⟩ := by
  unfold subirArchivo
  rw [subirArchivoBody_stat_ok cfg net ora st f mt hstat, hcr, afterStat_ok,
    hopen, afterCrear_true_ok, hput, afterPut_exc]
  rfl

/-- A successful PUT (201 or 204) hands control to the record and optional
delete stage, with the trace ending in the PUT. -/
theorem subirArchivo_upload_ok (cfg : Config) (net : Request → NetResult)
    (ora : FileOracle) (st : LedgerSt) (f : String) (mt : Nat)
    (tr : List Request) (code : Nat) (body : String)
    (hstat : ora.statRes = .ok mt)
    (hcr : crearLoop net cfg.baseUrl (pathParts (destinoRemoto cfg mt)) "" =
      .ok (true, tr))
    (hopen : ora.openRes = .ok ())
    (hput : net ⟨.PUT, cfg.baseUrl ++ "/" ++ destinoRemoto cfg mt ++ "/" ++ f⟩ =
      .status code body)
    (hcode : code = 201 ∨ code = 204) :
    subirArchivo cfg net ora st f =
      catchBody (afterPutOk cfg ora.writeRes ora.removeRes st f
        (tr ++ [⟨.PUT, cfg.baseUrl ++ "/" ++ destinoRemoto cfg mt ++ "/" ++ f⟩])) := by
  unfold subirArchivo
  rw [subirArchivoBody_stat_ok cfg net ora st f mt hstat, hcr, afterStat_ok,
    hopen, afterCrear_true_ok, hput, afterPut_status, if_pos hcode]

/-- The record and optional delete stage on a successful record: the
function returns True with the recorded state whenever deletion is off or
the delete call returns or raises an OSError. -/
theorem catch_afterPutOk_recorded (cfg : Config) (wr rr : Except PyExc Unit)
    (st st2 : LedgerSt) (f : String) (tr2 : List Request)
    (hm : marcarComoSubido wr st f = .ok st2)
    (hrr : cfg.deleteAfterUpload = false ∨ rr = .ok () ∨
      ∃ m, rr = .error (.oSError m)) :
    (catchBody (afterPutOk cfg wr rr st f tr2)).retOk = true ∧
      (catchBody (afterPutOk cfg wr rr st f tr2)).st = st2 ∧
      (catchBody (afterPutOk cfg wr rr st f tr2)).trace = tr2 := by
  rw [afterPutOk_eq, hm]
  rcases hrr with hdel | hrr | ⟨m, hrr⟩
  · rw [hdel]
    exact ⟨rfl, rfl, rfl⟩
  · rw [hrr]
    cases hdel : cfg.deleteAfterUpload with
    | false => exact ⟨rfl, rfl, rfl⟩
    | true => exact ⟨rfl, rfl, rfl⟩
  · rw [hrr]
    cases hdel : cfg.deleteAfterUpload with
    | false => exact ⟨rfl, rfl, rfl⟩
    | true => exact ⟨rfl, rfl, rfl⟩

theorem err_result_eq {e1 e2 : PyExc} {r1 r2 : UpResult}
    (h : (Except.error (e1, r1) : Except (PyExc × UpResult) UpResult) =
      .error (e2, r2)) : r2 = r1 := by
  injection h with h1
  exact (congrArg Prod.snd h1).symm

theorem afterDelete_err_retOk (rr : Except PyExc Unit) (st2 : LedgerSt)
    (tr2 : List Request) (e : PyExc) (r : UpResult)
    (h : afterDelete rr st2 tr2 = .error (e, r)) : r.retOk = false := by
  cases rr with
  | ok u => exact Except.noConfusion h
  | error e2 =>
    cases e2 with
    | oSError m => exact Except.noConfusion h
    | requestException m => rw [err_result_eq h]
    | valueError m => rw [err_result_eq h]
    | otherExc m => rw [err_result_eq h]

theorem afterPutOk_err_retOk (cfg : Config) (wr rr : Except PyExc Unit)
    (st : LedgerSt) (f : String) (tr2 : List Request) (e : PyExc)
    (r : UpResult) (h : afterPutOk cfg wr rr st f tr2 = .error (e, r)) :
    r.retOk = false := by
  rw [afterPutOk_eq] at h
  cases hm : marcarComoSubido wr st f with
  | error e2 =>
    rw [hm] at h
    rw [err_result_eq h]
  | ok st2 =>
    rw [hm] at h
    cases hdel : cfg.deleteAfterUpload with
    | false =>
      rw [hdel] at h
      exact Except.noConfusion h
    | true =>
      rw [hdel] at h
      exact afterDelete_err_retOk rr st2 tr2 e r h

theorem afterPut_err_retOk (cfg : Config) (wr rr : Except PyExc Unit)
    (st : LedgerSt) (f : String) (tr2 : List Request) (pr : NetResult)
    (e : PyExc) (r : UpResult) (h : afterPut cfg wr rr st f tr2 pr = .error (e, r)) :
    r.retOk = false := by
  cases pr with
  | exc e2 =>
    rw [afterPut_exc] at h
    rw [err_result_eq h]
  | status code body =>
    rw [afterPut_status] at h
    by_cases hcode : code = 201 ∨ code = 204
    · rw [if_pos hcode] at h
      exact afterPutOk_err_retOk cfg wr rr st f tr2 e r h
    · rw [if_neg hcode] at h
      exact Except.noConfusion h

theorem afterCrear_err_retOk (cfg : Config) (net : Request → NetResult)
    (opr wr rr : Except PyExc Unit) (st : LedgerSt) (f : String) (mt : Nat)
    (cr2 : Bool × List Request) (e : PyExc) (r : UpResult)
    (h : afterCrear cfg net opr wr rr st f mt cr2 = .error (e, r)) :
    r.retOk = false := by
  obtain ⟨b, tr⟩ := cr2
  cases b with
  | false =>
    rw [afterCrear_false] at h
    exact Except.noConfusion h
  | true =>
    cases opr with
    | error e2 =>
      rw [afterCrear_true_err] at h
      rw [err_result_eq h]
    | ok u =>
      rw [afterCrear_true_ok] at h
      exact afterPut_err_retOk cfg wr rr st f _ _ e r h

theorem afterStat_err_retOk (cfg : Config) (net : Request → NetResult)
    (opr wr rr : Except PyExc Unit) (st : LedgerSt) (f : String) (mt : Nat)
    (cr : Except (PyExc × List Request) (Bool × List Request)) (e : PyExc)
    (r : UpResult) (h : afterStat cfg net opr wr rr st f mt cr = .error (e, r)) :
    r.retOk = false := by
  cases cr with
  | error p =>
    obtain ⟨e2, tr⟩ := p
    rw [afterStat_err] at h
    rw [err_result_eq h]
  | ok cr2 =>
    rw [afterStat_ok] at h
    exact afterCrear_err_retOk cfg net opr wr rr st f mt cr2 e r h

/-- Whenever the try body of subir_archivo raises, the carried observable
result has a False return value. -/
theorem subirArchivoBody_err_retOk (cfg : Config) (net : Request → NetResult)
    (ora : FileOracle) (st : LedgerSt) (f : String) (e : PyExc) (r : UpResult)
    (h : subirArchivoBody cfg net ora st f = .error (e, r)) :
    r.retOk = false := by
  cases hstat : ora.statRes with
  | error e2 =>
    rw [subirArchivoBody_stat_err cfg net ora st f e2 hstat] at h
    rw [err_result_eq h]
  | ok mt =>
    rw [subirArchivoBody_stat_ok cfg net ora st f mt hstat] at h
    exact afterStat_err_retOk cfg net ora.openRes ora.writeRes ora.removeRes
      st f mt _ e r h

/-- The handler of subir_archivo returns the carried result of a raised
exception unchanged. -/
theorem subirArchivo_of_body_err (cfg : Config) (net : Request → NetResult)
    (ora : FileOracle) (st : LedgerSt) (f : String) (e : PyExc) (r : UpResult)
    (h : subirArchivoBody cfg net ora st f = .error (e, r)) :
    subirArchivo cfg net ora st f = r := by
  unfold subirArchivo
  rw [h]
  rfl

/-- A fresh state loaded from a line-terminated backing store satisfies the
ledger invariant. -/
theorem ledgerInv_reload (c : List Char) (hc : lineTerminated c) :
    ledgerInv (reload c) :=
  ⟨hc, fun _ hn _ => hn⟩

theorem marcar_ok_memSet (w : Except PyExc Unit) (st st2 : LedgerSt)
    (f : String) (hm : marcarComoSubido w st f = .ok st2) :
    st2.memSet ⊆ insert f st.memSet := by
  cases w with
  | ok u =>
    simp only [marcarComoSubido, Except.ok.injEq] at hm
    subst hm
    exact Finset.Subset.refl _
  | error e =>
    cases e with
    | oSError m =>
      simp only [marcarComoSubido, Except.ok.injEq] at hm
      subst hm
      exact Finset.subset_insert f st.memSet
    | requestException m => simp [marcarComoSubido] at hm
    | valueError m => simp [marcarComoSubido] at hm
    | otherExc m => simp [marcarComoSubido] at hm

/-- At most the bare file name is added to the in-memory set. -/
theorem subirArchivo_memSet_bound (cfg : Config) (net : Request → NetResult)
    (ora : FileOracle) (st : LedgerSt) (f : String) :
    (subirArchivo cfg net ora st f).st.memSet ⊆ insert f st.memSet := by
  rcases subirArchivo_st_cases cfg net ora st f with h | h
  · rw [h]
    exact Finset.subset_insert f st.memSet
  · exact marcar_ok_memSet ora.writeRes st _ f h

/-- Claim C1 (counterexample): the existence probe of the prefix Root
returns 500, which is neither 200 nor 404, yet the resolver does not fail:
it issues no creation request, continues to the deeper prefix Root/Sub, and
returns success. This refutes the claim that any probe status other than
200 and 404 is treated as a fatal failure. -/
theorem c1_counterexample :
    c1net ⟨.PROPFIND, "u/Root"⟩ = .status 500 "err" ∧
    crearCarpetaRemota c1net "u" "Root/Sub" =
      .ok (true, [⟨.PROPFIND, "u/Root"⟩, ⟨.PROPFIND, "u/Root/Sub"⟩]) := by
  decide

/-- Claim C1 (amended): any probe status other than 404 makes the resolver
treat the prefix as existing: no creation request is issued for it, and the
walk simply continues with the deeper prefixes, prepending only the probe to
the trace, in both the successful and the exception outcome of the rest. -/
theorem c1_probe_unexpected_continues :
    ∀ (net : Request → NetResult) (u part : String) (rest : List String)
      (cur : String) (code : Nat) (body : String),
      net ⟨.PROPFIND, u ++ "/" ++ extendPath cur part⟩ = .status code body →
      code ≠ 404 →
      (∀ (b : Bool) (tr : List Request),
        crearLoop net u rest (extendPath cur part) = .ok (b, tr) →
        crearLoop net u (part :: rest) cur =
          .ok (b, ⟨.PROPFIND, u ++ "/" ++ extendPath cur part⟩ :: tr)) ∧
      (∀ (e : PyExc) (tr : List Request),
        crearLoop net u rest (extendPath cur part) = .error (e, tr) →
        crearLoop net u (part :: rest) cur =
          .error (e, ⟨.PROPFIND, u ++ "/" ++ extendPath cur part⟩ :: tr)) :=
  fun net u part rest cur code body hp h404 =>
    ⟨fun b tr hrec => crearLoop_probe_skip_ok net u part rest cur code body b tr hp h404 hrec,
     fun e tr hrec => crearLoop_probe_skip_err net u part rest cur code body e tr hp h404 hrec⟩

/-- Claim C1 (witness): the amended statement applied to the 500-status
session on a single-part path. -/
theorem c1_witness :
    crearLoop c1net "u" ["Root"] "" = .ok (true, [⟨.PROPFIND, "u/Root"⟩]) :=
  (c1_probe_unexpected_continues c1net "u" "Root" [] "" 500 "err" (by decide)
    (by decide)).1 true [] (by decide)

/-- Claim C2 (counterexample): one local file named with a leading space is
uploaded and recorded by the first run, but the persisted line is stripped
when reloaded, so the second run, with no local changes, still treats the
file as new and uploads it again: both runs report one upload out of one
candidate, instead of the second run uploading zero files. -/
theorem c2_counterexample :
    candidates c2cfg (reload []) = [" a.jpg"] ∧
    runCount (runEngine c2cfg netAllOk oraFnAllOk (reload [])) = some (1, 1) ∧
    runBacking (runEngine c2cfg netAllOk oraFnAllOk (reload [])) =
      some (" a.jpg\n".data) ∧
    candidates c2cfg (reload (" a.jpg\n".data)) = [" a.jpg"] ∧
    runCount (runEngine c2cfg netAllOk oraFnAllOk (reload (" a.jpg\n".data))) =
      some (1, 1) := by
  decide

/-- Claim C2 (amended): over a line-terminated backing store, every file
whose name is in the in-memory uploaded set after a run — in particular
every file recorded during the run — and whose name is nonempty, newline
free and unchanged by whitespace stripping, is excluded from the candidate
set of a later run that reloads the persisted ledger; without the clean-name
condition the exclusion fails, as the counterexample shows. -/
theorem c2_recorded_clean_names_excluded :
    ∀ (cfg : Config) (net : Request → NetResult) (orafn : String → FileOracle)
      (files : List String) (st : LedgerSt) (f : String),
      ledgerInv st →
      f ∈ (runLoop cfg net orafn files st).2.memSet →
      cleanName f →
      f ∉ candidates cfg (reload (runLoop cfg net orafn files st).2.backing) :=
  fun cfg net orafn files st f hinv hmem hclean =>
    mem_reload_excluded cfg _ (runLoop_inv cfg net orafn files st hinv) f hmem hclean

/-- Claim C2 (witness): the amended statement applied to a clean file name
uploaded from an empty ledger. -/
theorem c2_witness :
    "b.jpg" ∉ candidates c2wcfg
      (reload (runLoop c2wcfg netAllOk oraFnAllOk ["b.jpg"] (reload [])).2.backing) :=
  c2_recorded_clean_names_excluded c2wcfg netAllOk oraFnAllOk ["b.jpg"] (reload [])
    "b.jpg" (ledgerInv_reload [] (Or.inl rfl)) (by decide) (by decide)

/-- Claim C3: a network exception raised by the PUT is caught inside
subir_archivo, which returns False with the ledger state unchanged (the
trace ends with the attempted PUT), and the per-candidate loop simply
continues with the remaining candidates, counting this one as failed: the
loop result over the failing candidate and the rest equals the loop result
over the rest alone. -/
theorem c3_network_exception_isolated :
    ∀ (cfg : Config) (net : Request → NetResult) (orafn : String → FileOracle)
      (st : LedgerSt) (f : String) (rest : List String) (mt : Nat)
      (tr : List Request) (e : PyExc),
      (orafn f).statRes = .ok mt →
      crearLoop net cfg.baseUrl (pathParts (destinoRemoto cfg mt)) "" =
        .ok (true, tr) →
      (orafn f).openRes = .ok () →
      net ⟨.PUT, cfg.baseUrl ++ "/" ++ destinoRemoto cfg mt ++ "/" ++ f⟩ = .exc e →
      subirArchivo cfg net (orafn f) st f =
        ⟨false, st, false,
          tr ++ [⟨.PUT, cfg.baseUrl ++ "/" ++ destinoRemoto cfg mt ++ "/" ++ f⟩]⟩ ∧
      runLoop cfg net orafn (f :: rest) st = runLoop cfg net orafn rest st := by
  intro cfg net orafn st f rest mt tr e hstat hcr hopen hput
  have h := subirArchivo_put_exc cfg net (orafn f) st f mt tr e hstat hcr hopen hput
  refine ⟨h, ?_⟩
  rw [runLoop_cons, h]
  exact tally_false _

/-- Claim C3 (witness): the statement applied to a session whose PUT raises
a request exception, with one further candidate left in the loop. -/
theorem c3_witness :
    subirArchivo c2wcfg c3net (oraFnAllOk "b.jpg") (reload []) "b.jpg" =
      ⟨false, reload [], false,
        [⟨.PROPFIND, "u/T"⟩, ⟨.PROPFIND, "u/T/2024"⟩, ⟨.PROPFIND, "u/T/2024/03"⟩,
         ⟨.PUT, "u/T/2024/03/b.jpg"⟩]⟩ ∧
    runLoop c2wcfg c3net oraFnAllOk ["b.jpg", "g.jpg"] (reload []) =
      runLoop c2wcfg c3net oraFnAllOk ["g.jpg"] (reload []) :=
  c3_network_exception_isolated c2wcfg c3net oraFnAllOk (reload []) "b.jpg" ["g.jpg"]
    1710500000
    [⟨.PROPFIND, "u/T"⟩, ⟨.PROPFIND, "u/T/2024"⟩, ⟨.PROPFIND, "u/T/2024/03"⟩]
    (.requestException "timeout") rfl (by decide) rfl (by decide)

/-- Claim C4: for a folder-creation request, status 201 and status 405 are
both success and let the walk continue with both requests recorded; any
other status is fatal for the chain: the walk returns failure with exactly
the probe and creation attempt of that prefix in its trace and touches no
deeper prefix; and when the resolver reports failure, subir_archivo returns
False without changing any state, and its trace — the failed walk trace —
contains no PUT, so the upload is never attempted. -/
theorem c4_mkcol_statuses :
    (∀ (net : Request → NetResult) (u part : String) (rest : List String)
      (cur body mbody : String) (mcode : Nat),
      net ⟨.PROPFIND, u ++ "/" ++ extendPath cur part⟩ = .status 404 body →
      net ⟨.MKCOL, u ++ "/" ++ extendPath cur part⟩ = .status mcode mbody →
      mcode ≠ 201 → mcode ≠ 405 →
      crearLoop net u (part :: rest) cur =
        .ok (false, [⟨.PROPFIND, u ++ "/" ++ extendPath cur part⟩,
          ⟨.MKCOL, u ++ "/" ++ extendPath cur part⟩])) ∧
    (∀ (net : Request → NetResult) (u part : String) (rest : List String)
      (cur body mbody : String) (mcode : Nat) (b : Bool) (tr : List Request),
      net ⟨.PROPFIND, u ++ "/" ++ extendPath cur part⟩ = .status 404 body →
      net ⟨.MKCOL, u ++ "/" ++ extendPath cur part⟩ = .status mcode mbody →
      (mcode = 201 ∨ mcode = 405) →
      crearLoop net u rest (extendPath cur part) = .ok (b, tr) →
      crearLoop net u (part :: rest) cur =
        .ok (b, ⟨.PROPFIND, u ++ "/" ++ extendPath cur part⟩ ::
          ⟨.MKCOL, u ++ "/" ++ extendPath cur part⟩ :: tr)) ∧
    (∀ (cfg : Config) (net : Request → NetResult) (ora : FileOracle)
      (st : LedgerSt) (f : String) (mt : Nat) (tr : List Request),
      ora.statRes = .ok mt →
      crearLoop net cfg.baseUrl (pathParts (destinoRemoto cfg mt)) "" =
        .ok (false, tr) →
      subirArchivo cfg net ora st f = ⟨false, st, false, tr⟩ ∧
      ∀ r ∈ tr, r.method ≠ .PUT) := by
  refine ⟨?_, ?_, ?_⟩
  · intro net u part rest cur body mbody mcode hp hm h1 h2
    exact crearLoop_mkcol_fail net u part rest cur body mbody mcode hp hm h1 h2
  · intro net u part rest cur body mbody mcode b tr hp hm hok hrec
    exact crearLoop_mkcol_ok net u part rest cur body mbody mcode b tr hp hm hok hrec
  · intro cfg net ora st f mt tr hstat hcr
    refine ⟨subirArchivo_crear_fail cfg net ora st f mt tr hstat hcr, ?_⟩
    intro r hr
    have h := crearLoop_no_put net cfg.baseUrl (pathParts (destinoRemoto cfg mt)) "" r
    rw [hcr] at h
    exact h hr

/-- Claim C4 (witness): the fatal branch applied to a session whose probes
answer 404 and whose creations answer 500, on a two-part path: the result
is failure and the deeper prefix is never touched. -/
theorem c4_witness :
    crearLoop c4net "u" ["Root", "Sub"] "" =
      .ok (false, [⟨.PROPFIND, "u/Root"⟩, ⟨.MKCOL, "u/Root"⟩]) :=
  c4_mkcol_statuses.1 c4net "u" "Root" ["Sub"] "" "" "server error" 500
    rfl rfl (by decide) (by decide)

/-- Claim C5 (counterexample): a file a.jpg is accepted when the configured
allow-set entry is .jpg but rejected when the entry is .JPG, and the file
a.JPG equally matches only the lowercase configuration: the inclusion
decision depends on the letter case of the configured allow-set entries,
refuting the claim that the match is insensitive to their case. -/
theorem c5_counterexample :
    extMatches (parseExtensions ".JPG") "a.jpg" = false ∧
    extMatches (parseExtensions ".jpg") "a.jpg" = true ∧
    extMatches (parseExtensions ".JPG") "a.JPG" = false ∧
    extMatches (parseExtensions ".jpg") "a.JPG" = true := by
  decide

/-- Claim C5 (amended): the extension filter lowercases the suffix of the
file name before the membership test, so it is case-insensitive in the
letter case of the file extension — two files with suffixes equal up to
case are included or excluded identically — while the configured allow-set
entries are compared exactly as configured; and every candidate of a run
has passed this filter before the dedup rule applies. -/
theorem c5_extension_match :
    (∀ (exts : List String) (f g : String),
      lowerStr (pySuffix f) = lowerStr (pySuffix g) →
      extMatches exts f = extMatches exts g) ∧
    (∀ (cfg : Config) (st : LedgerSt) (f : String),
      f ∈ candidates cfg st → extMatches cfg.extensions f = true) := by
  constructor
  · intro exts f g h
    unfold extMatches
    rw [h]
  · intro cfg st f hf
    unfold candidates at hf
    rw [List.mem_filter] at hf
    obtain ⟨hf1, hf2⟩ := hf
    rw [List.mem_filter] at hf1
    exact hf1.2

/-- Claim C5 (witness): the amended statement applied to two names whose
suffixes differ only in case. -/
theorem c5_witness :
    extMatches (parseExtensions ".jpg") "a.JPG" =
      extMatches (parseExtensions ".jpg") "a.jpg" :=
  c5_extension_match.1 (parseExtensions ".jpg") "a.JPG" "a.jpg" (by decide)

/-- Claim C6 (counterexample): with deletion enabled, a file named with a
leading space is uploaded with status 201, recorded, and its local delete
fails with an OSError: subir_archivo still returns True, the ledger entry
remains and the file is not deleted — yet the file is not excluded from the
candidates of the next run, because the reloaded ledger holds the stripped
name. This refutes the final part of the claim. -/
theorem c6_counterexample :
    (subirArchivo c6cfg netAllOk (c6ora " b.jpg") (reload []) " b.jpg").retOk =
      true ∧
    (subirArchivo c6cfg netAllOk (c6ora " b.jpg") (reload []) " b.jpg").deleted =
      false ∧
    (subirArchivo c6cfg netAllOk (c6ora " b.jpg") (reload []) " b.jpg").st.backing =
      " b.jpg\n".data ∧
    " b.jpg" ∈
      (subirArchivo c6cfg netAllOk (c6ora " b.jpg") (reload []) " b.jpg").st.memSet ∧
    " b.jpg" ∈ candidates c6cfg
      (reload (subirArchivo c6cfg netAllOk (c6ora " b.jpg") (reload [])
        " b.jpg").st.backing) := by
  decide

/-- Claim C6 (amended): with deletion enabled, when the upload returns 201
or 204, the record succeeds and the local delete then raises an OSError,
subir_archivo still returns True, the ledger entry written just before the
deletion remains in memory and in the backing store, the run counts the
file as succeeded, and — provided the name is nonempty, newline free and
unchanged by whitespace stripping — the file is excluded from the
candidates of a next run reloading the persisted ledger. -/
theorem c6_delete_failure_keeps_success :
    ∀ (cfg : Config) (net : Request → NetResult) (orafn : String → FileOracle)
      (st : LedgerSt) (f : String) (rest : List String) (mt : Nat)
      (tr : List Request) (code : Nat) (body m : String),
      (orafn f).statRes = .ok mt →
      crearLoop net cfg.baseUrl (pathParts (destinoRemoto cfg mt)) "" =
        .ok (true, tr) →
      (orafn f).openRes = .ok () →
      net ⟨.PUT, cfg.baseUrl ++ "/" ++ destinoRemoto cfg mt ++ "/" ++ f⟩ =
        .status code body →
      (code = 201 ∨ code = 204) →
      (orafn f).writeRes = .ok () →
      cfg.deleteAfterUpload = true →
      (orafn f).removeRes = .error (.oSError m) →
      ledgerInv st →
      cleanName f →
      (subirArchivo cfg net (orafn f) st f).retOk = true ∧
      (subirArchivo cfg net (orafn f) st f).st =
        ⟨insert f st.memSet, st.backing ++ f.data ++ ['\n']⟩ ∧
      runLoop cfg net orafn (f :: rest) st =
        ((runLoop cfg net orafn rest (subirArchivo cfg net (orafn f) st f).st).1 + 1,
         (runLoop cfg net orafn rest (subirArchivo cfg net (orafn f) st f).st).2) ∧
      f ∉ candidates cfg (reload (runLoop cfg net orafn (f :: rest) st).2.backing) := by
  intro cfg net orafn st f rest mt tr code body m hstat hcr hopen hput hcode
    hwrite hdel hrem hinv hclean
  have hm : marcarComoSubido (orafn f).writeRes st f =
      .ok ⟨insert f st.memSet, st.backing ++ f.data ++ ['\n']⟩ := by
    rw [hwrite]
    rfl
  have hup := subirArchivo_upload_ok cfg net (orafn f) st f mt tr code body
    hstat hcr hopen hput hcode
  have hrr : cfg.deleteAfterUpload = false ∨ (orafn f).removeRes = .ok () ∨
      ∃ m2, (orafn f).removeRes = .error (.oSError m2) :=
    Or.inr (Or.inr ⟨m, hrem⟩)
  have hrec := catch_afterPutOk_recorded cfg (orafn f).writeRes (orafn f).removeRes
    st _ f
    (tr ++ [⟨.PUT, cfg.baseUrl ++ "/" ++ destinoRemoto cfg mt ++ "/" ++ f⟩]) hm hrr
  have hret : (subirArchivo cfg net (orafn f) st f).retOk = true := by
    rw [hup]
    exact hrec.1
  have hst : (subirArchivo cfg net (orafn f) st f).st =
      ⟨insert f st.memSet, st.backing ++ f.data ++ ['\n']⟩ := by
    rw [hup]
    exact hrec.2.1
  refine ⟨hret, hst, ?_, ?_⟩
  · rw [runLoop_cons, hret]
    exact tally_true _
  · have hfinv := runLoop_inv cfg net orafn (f :: rest) st hinv
    have hmem : f ∈ (runLoop cfg net orafn (f :: rest) st).2.memSet := by
      rw [runLoop_cons, tally_snd]
      apply runLoop_subset cfg net orafn rest (subirArchivo cfg net (orafn f) st f).st
      rw [hst]
      exact Finset.mem_insert_self f st.memSet
    exact mem_reload_excluded cfg _ hfinv f hmem hclean

/-- Claim C6 (witness): the amended statement applied to a clean name in
the delete-fails world; the exclusion conclusion at the concrete input. -/
theorem c6_witness :
    "b.jpg" ∉ candidates c6wcfg
      (reload (runLoop c6wcfg netAllOk c6ora ["b.jpg"] (reload [])).2.backing) :=
  (c6_delete_failure_keeps_success c6wcfg netAllOk c6ora (reload []) "b.jpg" []
    1710500000 [⟨.PROPFIND, "u/T"⟩, ⟨.PROPFIND, "u/T/2024"⟩, ⟨.PROPFIND, "u/T/2024/03"⟩]
    201 "" "busy" rfl (by decide) rfl rfl (Or.inl rfl) rfl rfl rfl
    (ledgerInv_reload [] (Or.inl rfl)) (by decide)).2.2.2

/-- Claim C7: on the specification scenario — IMG_0001.jpg modified on
2024-03-15, target root TermuxUploads — the derived destination is
TermuxUploads/2024/03, the request sequence is probe/create for each prefix
from shortest to longest followed by a single PUT to the full path, the
upload succeeds and exactly the bare file name is recorded; and in general
every PUT any processing issues goes to base/root/year/month/name derived
purely from the stat timestamp and the configuration, and at most the bare
file name enters the in-memory set. -/
theorem c7_destination_and_sequence :
    destinoRemoto c7cfg 1710500000 = "TermuxUploads/2024/03" ∧
    (subirArchivo c7cfg netScenario oraAllOk (reload []) "IMG_0001.jpg").retOk =
      true ∧
    (subirArchivo c7cfg netScenario oraAllOk (reload []) "IMG_0001.jpg").trace =
      [⟨.PROPFIND, "https://nc.example/remote.php/dav/files/user/TermuxUploads"⟩,
       ⟨.MKCOL, "https://nc.example/remote.php/dav/files/user/TermuxUploads"⟩,
       ⟨.PROPFIND, "https://nc.example/remote.php/dav/files/user/TermuxUploads/2024"⟩,
       ⟨.MKCOL, "https://nc.example/remote.php/dav/files/user/TermuxUploads/2024"⟩,
       ⟨.PROPFIND, "https://nc.example/remote.php/dav/files/user/TermuxUploads/2024/03"⟩,
       ⟨.MKCOL, "https://nc.example/remote.php/dav/files/user/TermuxUploads/2024/03"⟩,
       ⟨.PUT, "https://nc.example/remote.php/dav/files/user/TermuxUploads/2024/03/IMG_0001.jpg"⟩] ∧
    (subirArchivo c7cfg netScenario oraAllOk (reload []) "IMG_0001.jpg").st.backing =
      "IMG_0001.jpg\n".data ∧
    "IMG_0001.jpg" ∈
      (subirArchivo c7cfg netScenario oraAllOk (reload []) "IMG_0001.jpg").st.memSet ∧
    (∀ (cfg : Config) (net : Request → NetResult) (ora : FileOracle)
      (st : LedgerSt) (f : String) (mt : Nat),
      ora.statRes = .ok mt →
      ∀ r ∈ (subirArchivo cfg net ora st f).trace, r.method = .PUT →
        r.url = cfg.baseUrl ++ "/" ++ destinoRemoto cfg mt ++ "/" ++ f) ∧
    (∀ (cfg : Config) (net : Request → NetResult) (ora : FileOracle)
      (st : LedgerSt) (f : String),
      (subirArchivo cfg net ora st f).st.memSet ⊆ insert f st.memSet) := by
  refine ⟨by decide, by decide, by decide, by decide, by decide, ?_, ?_⟩
  · intro cfg net ora st f mt hstat
    exact subirArchivo_put_url cfg net ora st f mt hstat
  · intro cfg net ora st f
    exact subirArchivo_memSet_bound cfg net ora st f

/-- Claim C7 (witness): the general destination property applied on the
scenario world at the issued PUT request. -/
theorem c7_witness :
    ("https://nc.example/remote.php/dav/files/user/TermuxUploads/2024/03/IMG_0001.jpg" : String) =
      c7cfg.baseUrl ++ "/" ++ destinoRemoto c7cfg 1710500000 ++ "/" ++ "IMG_0001.jpg" :=
  c7_destination_and_sequence.2.2.2.2.2.1 c7cfg netScenario oraAllOk (reload [])
    "IMG_0001.jpg" 1710500000 rfl
    ⟨.PUT, "https://nc.example/remote.php/dav/files/user/TermuxUploads/2024/03/IMG_0001.jpg"⟩
    (by decide) rfl

/-- Claim C8: when the ledger append raises an IOError during
_marcar_como_subido, the in-memory set insert is skipped and the exception
is caught there, so subir_archivo still returns True with the ledger state
fully unchanged, and the run summary counts the file as succeeded even
though nothing was durably recorded — the unchanged state means the file is
eligible again on the next run. -/
theorem c8_write_failure_still_success :
    ∀ (cfg : Config) (net : Request → NetResult) (orafn : String → FileOracle)
      (st : LedgerSt) (f : String) (rest : List String) (mt : Nat)
      (tr : List Request) (code : Nat) (body m : String),
      (orafn f).statRes = .ok mt →
      crearLoop net cfg.baseUrl (pathParts (destinoRemoto cfg mt)) "" =
        .ok (true, tr) →
      (orafn f).openRes = .ok () →
      net ⟨.PUT, cfg.baseUrl ++ "/" ++ destinoRemoto cfg mt ++ "/" ++ f⟩ =
        .status code body →
      (code = 201 ∨ code = 204) →
      (orafn f).writeRes = .error (.oSError m) →
      (cfg.deleteAfterUpload = false ∨ (orafn f).removeRes = .ok () ∨
        ∃ m2, (orafn f).removeRes = .error (.oSError m2)) →
      (subirArchivo cfg net (orafn f) st f).retOk = true ∧
      (subirArchivo cfg net (orafn f) st f).st = st ∧
      runLoop cfg net orafn (f :: rest) st =
        ((runLoop cfg net orafn rest st).1 + 1, (runLoop cfg net orafn rest st).2) := by
  intro cfg net orafn st f rest mt tr code body m hstat hcr hopen hput hcode
    hwrite hrr
  have hm : marcarComoSubido (orafn f).writeRes st f = .ok st := by
    rw [hwrite]
    rfl
  have hup := subirArchivo_upload_ok cfg net (orafn f) st f mt tr code body
    hstat hcr hopen hput hcode
  have hrec := catch_afterPutOk_recorded cfg (orafn f).writeRes (orafn f).removeRes
    st st f
    (tr ++ [⟨.PUT, cfg.baseUrl ++ "/" ++ destinoRemoto cfg mt ++ "/" ++ f⟩]) hm hrr
  have hret : (subirArchivo cfg net (orafn f) st f).retOk = true := by
    rw [hup]
    exact hrec.1
  have hst : (subirArchivo cfg net (orafn f) st f).st = st := by
    rw [hup]
    exact hrec.2.1
  refine ⟨hret, hst, ?_⟩
  rw [runLoop_cons, hret, hst]
  exact tally_true _

/-- Claim C8 (witness): the statement applied to a world whose ledger
append fails with an IOError while upload succeeds. -/
theorem c8_witness :
    (subirArchivo c8cfg netAllOk (c8ora "b.jpg") (reload []) "b.jpg").retOk =
      true ∧
    (subirArchivo c8cfg netAllOk (c8ora "b.jpg") (reload []) "b.jpg").st =
      reload [] ∧
    runLoop c8cfg netAllOk c8ora ["b.jpg"] (reload []) =
      ((runLoop c8cfg netAllOk c8ora [] (reload [])).1 + 1,
       (runLoop c8cfg netAllOk c8ora [] (reload [])).2) :=
  c8_write_failure_still_success c8cfg netAllOk c8ora (reload []) "b.jpg" []
    1710500000
    [⟨.PROPFIND, "u/T"⟩, ⟨.PROPFIND, "u/T/2024"⟩, ⟨.PROPFIND, "u/T/2024/03"⟩]
    201 "" "disk full" rfl (by decide) rfl rfl (Or.inl rfl) rfl (Or.inl rfl)

/-- Claim C9: every exception of any class raised inside the try body of
subir_archivo — a failing stat, open, request, record or delete — is caught
by its except clauses: the function returns exactly the observable result
carried at the raise point, whose return value is always False, so no
exception reaches the per-candidate loop of run; the run itself aborts
exactly when the local directory is missing; and the constructor raises a
ValueError exactly when the url, the user or the password is empty. -/
theorem c9_exception_confinement :
    (∀ (cfg : Config) (net : Request → NetResult) (ora : FileOracle)
      (st : LedgerSt) (f : String) (e : PyExc) (r : UpResult),
      subirArchivoBody cfg net ora st f = .error (e, r) →
      subirArchivo cfg net ora st f = r ∧ r.retOk = false) ∧
    (∀ (cfg : Config) (net : Request → NetResult) (orafn : String → FileOracle)
      (st : LedgerSt),
      runEngine cfg net orafn st = .noDir ↔ cfg.dirExists = false) ∧
    (∀ b u p : String,
      (∃ e, initCheck b u p = .error e) ↔ (b = "" ∨ u = "" ∨ p = "")) :=
  ⟨fun cfg net ora st f e r h =>
    ⟨subirArchivo_of_body_err cfg net ora st f e r h,
     subirArchivoBody_err_retOk cfg net ora st f e r h⟩,
   runEngine_noDir_iff, initCheck_error_iff⟩

/-- Claim C9 (witness): the confinement applied to a world whose stat
raises an exception outside the OSError family. -/
theorem c9_witness :
    subirArchivo c8cfg netAllOk c9ora (reload []) "b.jpg" =
      ⟨false, reload [], false, []⟩ ∧
    (⟨false, reload [], false, []⟩ : UpResult).retOk = false :=
  c9_exception_confinement.1 c8cfg netAllOk c9ora (reload []) "b.jpg"
    (.otherExc "stat failed") ⟨false, reload [], false, []⟩ rfl

/-- Claim C10: _cargar_subidos returns the empty set when the backing store
is missing or unreadable; over a readable content it loads exactly the
whitespace-stripped nonblank physical lines, so the empty string is never a
member, membership is characterized by the stripped lines, and duplicated
content collapses to the same set. -/
theorem c10_cargar_subidos_spec :
    cargarSubidos .missing = ∅ ∧
    (∀ m, cargarSubidos (.readError m) = ∅) ∧
    (∀ c, decide (("" : String) ∈ cargarSubidos (.ok c)) = false) ∧
    (∀ (s : String) (c : List Char),
      s ∈ cargarSubidos (.ok c) ↔
        s.data ∈ ((splitLines c).map pyStripL).filter (fun l => decide (l ≠ []))) ∧
    (∀ c, cargarSubidos (.ok (c ++ '\n' :: c)) = cargarSubidos (.ok c)) := by
  refine ⟨rfl, fun m => rfl, ?_, ?_, ?_⟩
  · intro c
    apply decide_eq_false
    intro hmem
    have h2 : ("" : String) ∈
        ((((splitLines c).map pyStripL).filter (fun l => decide (l ≠ []))).map
          (fun l => String.mk l)) := List.mem_toFinset.mp hmem
    rw [List.mem_map] at h2
    obtain ⟨l, hl, hmk⟩ := h2
    rw [List.mem_filter] at hl
    exact of_decide_eq_true hl.2 (congrArg String.data hmk)
  · intro s c
    constructor
    · intro h
      have h2 : s ∈
          ((((splitLines c).map pyStripL).filter (fun l => decide (l ≠ []))).map
            (fun l => String.mk l)) := List.mem_toFinset.mp h
      rw [List.mem_map] at h2
      obtain ⟨l, hl, hmk⟩ := h2
      subst hmk
      exact hl
    · intro h
      apply List.mem_toFinset.mpr
      rw [List.mem_map]
      exact ⟨s.data, h, rfl⟩
  · intro c
    show cargarContent (c ++ '\n' :: c) = cargarContent c
    rw [cargarContent_eq, cargarContent_eq]
    unfold splitLines
    rw [splitCharL_append, linesFinset_append, Finset.union_self]

/-- Claim C10 (witness): the membership characterization applied to a
content holding one space-padded line. -/
theorem c10_witness :
    ("a.jpg" : String) ∈ cargarSubidos (.ok (" a.jpg\n".data)) :=
  (c10_cargar_subidos_spec.2.2.2.1 "a.jpg" (" a.jpg\n".data)).mpr (by decide)
